import Mathlib

/-!
Shallow embedding of the direct-I/O submission and completion engine of
`block/fops.c` (Linux 5.15): the multi-bio submission loop
`__blkdev_direct_IO`, the per-bio completion callback `blkdev_bio_end_io`,
the single-bio fast path `__blkdev_direct_IO_simple`, and the entry-point
dispatcher `blkdev_direct_IO`.

Machine-level aspects kept explicit:
  * the `blkdev_dio` aggregate is embedded in the first bio; we track the
    first bio's reference count (`firstRef`) through `bio_get`/`bio_put`;
  * the iterator (`iov_iter`) is an external capability: it is modelled as
    the list of byte chunks that successive `bio_iov_iter_get_pages` calls
    would extract, each chunk either succeeding with a length or failing
    with an errno;
  * device completions are modelled as a list of per-bio completion events
    processed in an arbitrary arrival order.
-/

namespace BlkFops

/-- BIO_MAX_VECS: maximum number of bio_vecs in one bio (256 in 5.15). -/
def BIO_MAX_VECS : Nat := 256

/-- DIO_INLINE_BIO_VECS: on-stack bio_vec capacity of the simple path. -/
def DIO_INLINE_BIO_VECS : Nat := 4

/-- BLK_STS_IOERR: the non-ok block-layer status the submission loop stores
into a bio whose page acquisition failed (`bio->bi_status = BLK_STS_IOERR`).
Status 0 is BLK_STS_OK. -/
def BLK_STS_IOERR : Nat := 10

/-- Modelled from the spec: `blk_status_to_errno` is an external translation
of a block-layer status into 0 (for ok) or a negative errno.  The claims use
only that a non-ok status maps to a strictly negative value; we keep distinct
statuses distinct by negating the status code. -/
def blk_status_to_errno (s : Nat) : Int :=
  if s = 0 then 0 else -(Int.ofNat s)

/-- One `bio_iov_iter_get_pages` outcome: `len` bytes of user memory covered
by this call, `err` = 0 on success or the negative errno it returns. -/
structure Chunk where
  len : Nat
  err : Int
deriving DecidableEq

/-- The iov_iter state, as consumed by the engine: its alignment word
(`iov_iter_alignment`), direction, whether it is a user-space iovec, the
page count `bio_iov_vecs_to_alloc` would report (uncapped), and the chunk
list successive `bio_iov_iter_get_pages` calls would produce. -/
structure IovIter where
  alignment : Nat
  is_read : Bool
  is_iovec : Bool
  npages : Nat
  chunks : List Chunk
deriving DecidableEq

/-- iov_iter_count for a chunk list: bytes not yet extracted. -/
def iov_iter_count (cs : List Chunk) : Nat :=
  (cs.map Chunk.len).sum

/-- The kiocb fields the engine reads: position, `is_sync_kiocb`, and the
IOCB_NOWAIT / IOCB_HIPRI flags. -/
structure Kiocb where
  ki_pos : Nat
  is_sync : Bool
  nowait : Bool
  hipri : Bool
deriving DecidableEq

/-- Modelled from the spec: `bio_iov_vecs_to_alloc(iter, max)` is the
external Iterator page-count query, capped at the given maximum. -/
def bio_iov_vecs_to_alloc (iter : IovIter) (max_segs : Nat) : Nat :=
  min iter.npages max_segs

/-- bio_max_segs: cap a vector count at BIO_MAX_VECS. -/
def bio_max_segs (nr_segs : Nat) : Nat :=
  min nr_segs BIO_MAX_VECS

/-- The `struct blkdev_dio` aggregate, plus the reference count of the
first bio it is embedded in (`firstRef`): `size` and the sticky
`dio->bio.bi_status` accumulate across bios; `ref`/`multi_bio` implement
the completion fan-in; `waiter` is the blocking-waiter identity being
present (sync mode). -/
structure Dio where
  size : Nat
  status : Nat
  multi_bio : Bool
  ref : Nat
  is_sync : Bool
  should_dirty : Bool
  waiter : Bool
  firstRef : Nat
deriving DecidableEq

/-- Initial aggregate state as set up by `__blkdev_direct_IO` lines 213-223:
sync mode records the waiter and takes an extra reference on the first bio
(`bio_get`), so the first bio's count is 2 for sync and 1 (from allocation)
for async; size 0, status ok, `multi_bio` false. -/
def mkDio (is_sync should_dirty : Bool) : Dio :=
  { size := 0,
    status := 0,
    multi_bio := false,
    ref := 0,
    is_sync := is_sync,
    should_dirty := should_dirty,
    waiter := is_sync,
    firstRef := if is_sync then 2 else 1 }

/-- Sticky status update of `blkdev_bio_end_io`:
`if (bio->bi_status && !dio->bio.bi_status) dio->bio.bi_status = bio->bi_status`. -/
def stickyStatus (old incoming : Nat) : Nat :=
  if incoming ≠ 0 ∧ old = 0 then incoming else old

/-- Observable outcome of one `blkdev_bio_end_io` call: updated aggregate,
whether the finalization branch ran, the value reported to `ki_complete`
(async finalization), and whether the waiter was woken (sync finalization). -/
structure EndioOut where
  d : Dio
  finalized : Bool
  report : Option Int
  woke : Bool
deriving DecidableEq

/-- The completion callback `blkdev_bio_end_io`, for a bio carrying status
`bi_status`; `isFirst` says whether this bio is the first bio (the one the
dio is embedded in), whose reference count we track.  Transcription:
sticky-update the status; the call finalizes iff `!multi_bio` or the
decrement `atomic_dec_and_test(&dio->ref)` hits zero; async finalization
reports size (ok) or errno (error) to `ki_complete` and, when `multi_bio`,
puts the extra first-bio reference; sync finalization clears the waiter and
wakes it.  Afterwards the bio's own reference is dropped (directly via
`bio_put`, or through the page-dirty bookkeeping path). -/
def blkdev_bio_end_io (d : Dio) (bi_status : Nat) (isFirst : Bool) : EndioOut :=
  let st := stickyStatus d.status bi_status
  let ownPut : Nat := if isFirst then 1 else 0
  if ¬ d.multi_bio ∨ d.ref - 1 = 0 then
    if d.is_sync then
      let d' : Dio :=
        { d with
          status := st,
          ref := if d.multi_bio then d.ref - 1 else d.ref,
          waiter := false,
          firstRef := d.firstRef - ownPut }
      { d := d', finalized := true, report := none, woke := true }
    else
      let d' : Dio :=
        { d with
          status := st,
          ref := if d.multi_bio then d.ref - 1 else d.ref,
          firstRef := d.firstRef - ((if d.multi_bio then 1 else 0) + ownPut) }
      { d := d', finalized := true,
        report := some (if st = 0 then (d.size : Int) else blk_status_to_errno st),
        woke := false }
  else
    let d' : Dio :=
      { d with
        status := st,
        ref := d.ref - 1,
        firstRef := d.firstRef - ownPut }
    { d := d', finalized := false, report := none, woke := false }

/-- One device completion event: the bio's completion status and whether
the completing bio is the first bio. -/
structure BioComp where
  status : Nat
  isFirst : Bool
deriving DecidableEq

/-- Accumulated observation of a sequence of completions: final aggregate,
number of finalizations, values reported to `ki_complete`, wake-ups. -/
structure RunOut where
  d : Dio
  finCount : Nat
  reports : List Int
  wakes : Nat
deriving DecidableEq

/-- Process a list of per-bio completions (one arrival order) through
`blkdev_bio_end_io`. -/
def runCompletions (d : Dio) : List BioComp → RunOut
  | [] => ⟨d, 0, [], 0⟩
  | c :: cs =>
    let o := blkdev_bio_end_io d c.status c.isFirst
    let r := runCompletions o.d cs
    ⟨r.d, (if o.finalized then 1 else 0) + r.finCount,
      (match o.report with
       | some x => x :: r.reports
       | none => r.reports),
      (if o.woke then 1 else 0) + r.wakes⟩

/-- Result of one iteration of the submission loop body of
`__blkdev_direct_IO`. -/
inductive StepRes where
  /-- bio submitted, more data remains: continue with the next bio. -/
  | cont (d : Dio) (sz : Nat)
  /-- final bio submitted (`!nr_pages`): break with ret 0. -/
  | last (d : Dio) (sz : Nat)
  /-- `bio_iov_iter_get_pages` failed: the bio is failed in place with
  BLK_STS_IOERR and completed via `bio_endio`, then the loop breaks with
  the error in `ret`. -/
  | failStop (d : Dio) (fin : Bool) (report : Option Int) (ret : Int)
  /-- IOCB_NOWAIT with data left after this bio: release the bio's pages
  (not dirty), put the bio, return -EAGAIN. -/
  | abortNowait
deriving DecidableEq

/-- One iteration of the `for (;;)` loop of `__blkdev_direct_IO`, acting on
the current aggregate `d`, given `nSubmitted` bios already submitted, the
chunk `c` the current `bio_iov_iter_get_pages` call covers, and
`restCount` = `iov_iter_count` after that call.  Transcription order:
get_pages failure check; NOWAIT all-or-nothing check; `dio->size +=
bio->bi_iter.bi_size`; last-bio test (`!nr_pages`); otherwise the
`multi_bio` transition (extra `bio_get` on the first bio only when
`!is_sync`, `atomic_set(&dio->ref, 2)`) or `atomic_inc(&dio->ref)`. -/
def dioStep (nowait : Bool) (d : Dio) (nSubmitted : Nat) (c : Chunk)
    (restCount : Nat) : StepRes :=
  if c.err ≠ 0 then
    let o := blkdev_bio_end_io d BLK_STS_IOERR (nSubmitted = 0)
    .failStop o.d o.finalized o.report c.err
  else if nowait ∧ restCount ≠ 0 then
    .abortNowait
  else
    let d := { d with size := d.size + c.len }
    if restCount = 0 then
      .last d c.len
    else if ¬ d.multi_bio then
      let d' : Dio :=
        { d with
          multi_bio := true,
          ref := 2,
          firstRef := d.firstRef + (if d.is_sync then 0 else 1) }
      .cont d' c.len
    else
      .cont { d with ref := d.ref + 1 } c.len

/-- Outcome of the submission phase of `__blkdev_direct_IO` (everything up
to the post-loop return/wait). -/
inductive SubOut where
  /-- alignment check failed: return -EINVAL before building any bio. -/
  | einval
  /-- NOWAIT abort: `bio_release_pages(bio, dirtyArg)` with `dirtyArg =
  false`, bio discarded, return -EAGAIN; `submitted` and `bytes` are the
  bios handed to the device and the bytes accounted into `dio->size` at
  that point. -/
  | eagain (dirtyArg : Bool) (submitted : List Nat) (bytes : Nat)
  /-- loop finished: aggregate `d`, sizes of the bios submitted to the
  device queue (still to complete) in order, the C `ret` value after the
  loop (0, or the get_pages errno), and the number of finalizations that
  already ran during submission via the in-place `bio_endio`. -/
  | proceed (d : Dio) (inflight : List Nat) (ret : Int) (selfFin : Nat)
deriving DecidableEq

/-- The submission loop of `__blkdev_direct_IO`, consuming one chunk per
iteration. (The empty-chunk case is unreachable from the entry point,
which requires a non-zero `iov_iter_count`.) -/
def dioLoop (nowait : Bool) (d : Dio) (submitted : List Nat) :
    List Chunk → SubOut
  | [] => .proceed d submitted 0 0
  | c :: cs =>
    match dioStep nowait d submitted.length c (iov_iter_count cs) with
    | .cont d' sz => dioLoop nowait d' (submitted ++ [sz]) cs
    | .last d' sz => .proceed d' (submitted ++ [sz]) 0 0
    | .failStop d' fin _ ret => .proceed d' submitted ret (if fin then 1 else 0)
    | .abortNowait => .eagain false submitted d.size

/-- The general path `__blkdev_direct_IO`: reject on the alignment check
`(pos | iov_iter_alignment(iter)) & (bdev_logical_block_size(bdev) - 1)`,
else set up the aggregate and run the submission loop. -/
def blkdev_direct_IO_general (iocb : Kiocb) (iter : IovIter) (lbs : Nat) :
    SubOut :=
  if (iocb.ki_pos ||| iter.alignment) &&& (lbs - 1) ≠ 0 then
    .einval
  else
    dioLoop iocb.nowait (mkDio iocb.is_sync (iter.is_read && iter.is_iovec))
      [] iter.chunks

/-- The sync epilogue of `__blkdev_direct_IO` (lines 327-333), run by the
waiter after the last completion cleared `dio->waiter`: `ret` stays if
non-zero, else the sticky status is translated, else the byte total is
returned; then the waiter drops the remaining first-bio reference
(`bio_put(&dio->bio)`). -/
def syncFinish (ret : Int) (d : Dio) : Int × Dio :=
  (if ret ≠ 0 then ret
   else if d.status ≠ 0 then blk_status_to_errno d.status
   else (d.size : Int),
   { d with firstRef := d.firstRef - 1 })

/-- Outcome of `__blkdev_direct_IO_simple`. -/
inductive SimpleOut where
  /-- alignment check failed: return -EINVAL before building the bio. -/
  | einval
  /-- the single bio was built, submitted and waited for: `ret` is the
  returned byte count or error; `usedInline` says the on-stack
  `inline_vecs` storage was used (rather than `kmalloc_array`). -/
  | done (ret : Int) (usedInline : Bool)
deriving DecidableEq

/-- The fast path `__blkdev_direct_IO_simple`: alignment check, then one
bio with inline vec storage iff `nr_pages <= DIO_INLINE_BIO_VECS`, one
get_pages call (the head chunk), submit, block until completion, and
translate `bio.bi_status` (`devStatus`) if non-ok.  The `kmalloc_array`
fallback is assumed to succeed (allocation failure returns -ENOMEM). -/
def blkdev_direct_IO_simple (iocb : Kiocb) (iter : IovIter) (lbs : Nat)
    (nr_pages : Nat) (devStatus : Nat) : SimpleOut :=
  if (iocb.ki_pos ||| iter.alignment) &&& (lbs - 1) ≠ 0 then
    .einval
  else
    let usedInline := nr_pages ≤ DIO_INLINE_BIO_VECS
    match iter.chunks with
    | [] => .done 0 usedInline
    | c :: _ =>
      if c.err ≠ 0 then
        .done c.err usedInline
      else
        .done (if devStatus ≠ 0 then blk_status_to_errno devStatus
               else (c.len : Int)) usedInline

/-- Routing decision of the entry point `blkdev_direct_IO`. -/
inductive Route where
  /-- `!iov_iter_count(iter)`: return 0 immediately. -/
  | zeroBytes
  /-- `__blkdev_direct_IO_simple(iocb, iter, nr_pages)`. -/
  | simple (nr_pages : Nat)
  /-- `__blkdev_direct_IO(iocb, iter, bio_max_segs(nr_pages))`. -/
  | general (nr_pages : Nat)
deriving DecidableEq

/-- The entry point `blkdev_direct_IO`: zero-length requests return 0 at
once; otherwise `nr_pages = bio_iov_vecs_to_alloc(iter, BIO_MAX_VECS + 1)`
routes sync requests with `nr_pages <= BIO_MAX_VECS` to the simple path
and everything else to the general path. -/
def blkdev_direct_IO_entry (iocb : Kiocb) (iter : IovIter) : Route :=
  if iov_iter_count iter.chunks = 0 then
    .zeroBytes
  else
    let nr_pages := bio_iov_vecs_to_alloc iter (BIO_MAX_VECS + 1)
    if iocb.is_sync ∧ nr_pages ≤ BIO_MAX_VECS then
      .simple nr_pages
    else
      .general (bio_max_segs nr_pages)

/-- Chunk lists on which every `bio_iov_iter_get_pages` call succeeds and
extracts at least one byte. -/
def allOk (cs : List Chunk) : Prop :=
  ∀ c ∈ cs, c.err = 0 ∧ 0 < c.len

instance (cs : List Chunk) : Decidable (allOk cs) := by
  unfold allOk; infer_instance

/-- First non-ok status of a list, 0 if none. -/
def firstErr : List Nat → Nat
  | [] => 0
  | s :: rest => if s ≠ 0 then s else firstErr rest

/-- Byte-accounting invariant of a submission outcome: the bytes recorded
in the aggregate equal the sum of the bio sizes actually handed to the
device queue. -/
def sizeInv : SubOut → Prop
  | .einval => True
  | .eagain _ submitted bytes => bytes = (submitted : List Nat).sum
  | .proceed d inflight _ _ => d.size = inflight.sum

/-- Final aggregate state after an all-ok run of the submission loop on
chunk list `cs` (derived characterization; `dioLoop_allOk_run` below proves
the loop produces exactly this). -/
def finalDio (is_sync should_dirty : Bool) (cs : List Chunk) : Dio :=
  { size := iov_iter_count cs,
    status := 0,
    multi_bio := 2 ≤ cs.length,
    ref := if 2 ≤ cs.length then cs.length else 0,
    is_sync := is_sync,
    should_dirty := should_dirty,
    waiter := is_sync,
    firstRef := (if is_sync then 2 else 1) +
      (if 2 ≤ cs.length ∧ is_sync = false then 1 else 0) }

/-- Final aggregate state after a run whose last get_pages call fails with
`good` the successfully submitted prefix (nonempty): the failed bio was
completed in place, recording BLK_STS_IOERR and consuming its fan-in
reference (derived characterization, proved by `dioLoop_failEnd_run`). -/
def failDio (is_sync should_dirty : Bool) (good : List Chunk) : Dio :=
  { size := iov_iter_count good,
    status := BLK_STS_IOERR,
    multi_bio := true,
    ref := good.length,
    is_sync := is_sync,
    should_dirty := should_dirty,
    waiter := is_sync,
    firstRef := (if is_sync then 2 else 1) + (if is_sync then 0 else 1) }

/-! ### Arithmetic of the alignment check -/

/-- A bitwise-or masked by a power-of-two mask vanishes iff both operands
are multiples of that power of two: this is what the check
`(pos | iov_iter_alignment(iter)) & (bdev_logical_block_size(bdev) - 1)`
tests when the logical block size is `2 ^ b`. -/
lemma align_check_eq_zero (p a b : Nat) :
    ((p ||| a) &&& (2 ^ b - 1) = 0) ↔ (p % 2 ^ b = 0 ∧ a % 2 ^ b = 0) := by
  rw [Nat.and_pow_two_sub_one_eq_mod]
  constructor
  · intro h
    have hb : ∀ i, i < b → (p.testBit i || a.testBit i) = false := by
      intro i hi
      have h' := congrArg (fun x => x.testBit i) h
      simpa [Nat.testBit_mod_two_pow, Nat.testBit_lor, Nat.zero_testBit, hi]
        using h'
    constructor
    · apply Nat.eq_of_testBit_eq
      intro i
      rw [Nat.zero_testBit, Nat.testBit_mod_two_pow]
      by_cases hi : i < b
      · have := hb i hi
        simp only [Bool.or_eq_false_iff] at this
        simp [hi, this.1]
      · simp [hi]
    · apply Nat.eq_of_testBit_eq
      intro i
      rw [Nat.zero_testBit, Nat.testBit_mod_two_pow]
      by_cases hi : i < b
      · have := hb i hi
        simp only [Bool.or_eq_false_iff] at this
        simp [hi, this.2]
      · simp [hi]
  · intro ⟨hp, ha⟩
    apply Nat.eq_of_testBit_eq
    intro i
    rw [Nat.zero_testBit, Nat.testBit_mod_two_pow, Nat.testBit_lor]
    by_cases hi : i < b
    · have hp' := congrArg (fun x => x.testBit i) hp
      have ha' := congrArg (fun x => x.testBit i) ha
      simp only [Nat.testBit_mod_two_pow, Nat.zero_testBit, hi, decide_True,
        Bool.true_and] at hp' ha'
      simp [hp', ha']
    · simp [hi]

/-! ### Basic facts about the iterator count -/

@[simp] lemma iov_iter_count_nil : iov_iter_count [] = 0 := rfl

@[simp] lemma iov_iter_count_cons (c : Chunk) (cs : List Chunk) :
    iov_iter_count (c :: cs) = c.len + iov_iter_count cs := by
  simp [iov_iter_count]

lemma iov_iter_count_pos_of_allOk {cs : List Chunk} (h : allOk cs)
    (hne : cs ≠ []) : iov_iter_count cs ≠ 0 := by
  cases cs with
  | nil => exact absurd rfl hne
  | cons c cs =>
    have hc := h c (List.mem_cons_self c cs)
    simp only [iov_iter_count_cons]
    omega

lemma allOk_of_cons {c : Chunk} {cs : List Chunk} (h : allOk (c :: cs)) :
    (c.err = 0 ∧ 0 < c.len) ∧ allOk cs := by
  refine ⟨h c (List.mem_cons_self c cs), fun x hx => h x (List.mem_cons_of_mem c hx)⟩

/-! ### Branch characterizations of the completion callback -/

/-- A completion that is not the last of a multi-bio request: decrement
only, no finalization; the bio's own reference is dropped. -/
lemma endio_notLast (d : Dio) (s : Nat) (f : Bool)
    (hm : d.multi_bio = true) (hr : d.ref - 1 ≠ 0) :
    blkdev_bio_end_io d s f =
      { d := { d with
          status := stickyStatus d.status s,
          ref := d.ref - 1,
          firstRef := d.firstRef - (if f then 1 else 0) },
        finalized := false, report := none, woke := false } := by
  simp only [blkdev_bio_end_io]
  rw [if_neg (by simp [hm, hr])]

/-- The last (or sole) completion of a sync request: clear the waiter and
wake it; no bio_put of the first bio beyond the bio's own reference. -/
lemma endio_last_sync (d : Dio) (s : Nat) (f : Bool)
    (hlast : d.multi_bio = false ∨ d.ref - 1 = 0) (hs : d.is_sync = true) :
    blkdev_bio_end_io d s f =
      { d := { d with
          status := stickyStatus d.status s,
          ref := if d.multi_bio then d.ref - 1 else d.ref,
          waiter := false,
          firstRef := d.firstRef - (if f then 1 else 0) },
        finalized := true, report := none, woke := true } := by
  have hcond : ¬ d.multi_bio = true ∨ d.ref - 1 = 0 := by
    rcases hlast with h | h
    · exact Or.inl (by simp [h])
    · exact Or.inr h
  simp only [blkdev_bio_end_io]
  rw [if_pos hcond, if_pos hs]

/-- The last (or sole) completion of an async request: report size or errno
to `ki_complete`; when `multi_bio`, also put the extra reference on the
first bio. -/
lemma endio_last_async (d : Dio) (s : Nat) (f : Bool)
    (hlast : d.multi_bio = false ∨ d.ref - 1 = 0) (hs : d.is_sync = false) :
    blkdev_bio_end_io d s f =
      { d := { d with
          status := stickyStatus d.status s,
          ref := if d.multi_bio then d.ref - 1 else d.ref,
          firstRef := d.firstRef -
            ((if d.multi_bio then 1 else 0) + (if f then 1 else 0)) },
        finalized := true,
        report := some (if stickyStatus d.status s = 0 then (d.size : Int)
          else blk_status_to_errno (stickyStatus d.status s)),
        woke := false } := by
  have hcond : ¬ d.multi_bio = true ∨ d.ref - 1 = 0 := by
    rcases hlast with h | h
    · exact Or.inl (by simp [h])
    · exact Or.inr h
  simp only [blkdev_bio_end_io]
  rw [if_pos hcond, if_neg (by simp [hs])]

/-- The completion callback never changes the `multi_bio` flag, the byte
total, the mode flags or the dirty flag of the aggregate. -/
lemma endio_preserves (d : Dio) (s : Nat) (f : Bool) :
    (blkdev_bio_end_io d s f).d.multi_bio = d.multi_bio ∧
    (blkdev_bio_end_io d s f).d.size = d.size ∧
    (blkdev_bio_end_io d s f).d.is_sync = d.is_sync ∧
    (blkdev_bio_end_io d s f).d.should_dirty = d.should_dirty := by
  by_cases h1 : ¬ d.multi_bio = true ∨ d.ref - 1 = 0
  · by_cases h2 : d.is_sync = true
    · simp only [blkdev_bio_end_io]
      rw [if_pos h1, if_pos h2]
      exact ⟨rfl, rfl, rfl, rfl⟩
    · simp only [blkdev_bio_end_io]
      rw [if_pos h1, if_neg h2]
      exact ⟨rfl, rfl, rfl, rfl⟩
  · simp only [blkdev_bio_end_io]
    rw [if_neg h1]
    exact ⟨rfl, rfl, rfl, rfl⟩

/-- The completion callback always applies exactly the sticky update to the
status. -/
lemma endio_status (d : Dio) (s : Nat) (f : Bool) :
    (blkdev_bio_end_io d s f).d.status = stickyStatus d.status s := by
  by_cases h1 : ¬ d.multi_bio = true ∨ d.ref - 1 = 0
  · by_cases h2 : d.is_sync = true
    · simp only [blkdev_bio_end_io]
      rw [if_pos h1, if_pos h2]
    · simp only [blkdev_bio_end_io]
      rw [if_pos h1, if_neg h2]
  · simp only [blkdev_bio_end_io]
    rw [if_neg h1]

/-- On a multi-bio aggregate the callback always decrements the reference
count by one. -/
lemma endio_ref (d : Dio) (s : Nat) (f : Bool) (hm : d.multi_bio = true) :
    (blkdev_bio_end_io d s f).d.ref = d.ref - 1 := by
  by_cases h1 : ¬ d.multi_bio = true ∨ d.ref - 1 = 0
  · by_cases h2 : d.is_sync = true
    · simp only [blkdev_bio_end_io]
      rw [if_pos h1, if_pos h2]
      simp [hm]
    · simp only [blkdev_bio_end_io]
      rw [if_pos h1, if_neg h2]
      simp [hm]
  · simp only [blkdev_bio_end_io]
    rw [if_neg h1]

@[simp] lemma runCompletions_nil (d : Dio) :
    runCompletions d [] = ⟨d, 0, [], 0⟩ := rfl

lemma runCompletions_cons (d : Dio) (c : BioComp) (cs : List BioComp) :
    runCompletions d (c :: cs) =
      (let o := blkdev_bio_end_io d c.status c.isFirst
       let r := runCompletions o.d cs
       ⟨r.d, (if o.finalized then 1 else 0) + r.finCount,
        (match o.report with
         | some x => x :: r.reports
         | none => r.reports),
        (if o.woke then 1 else 0) + r.wakes⟩) := rfl

/-! ### Properties of completion fan-in, over every arrival order -/

/-- Completions never change the accumulated byte total. -/
lemma runCompletions_size (l : List BioComp) :
    ∀ d : Dio, (runCompletions d l).d.size = d.size := by
  induction l with
  | nil => intro d; rfl
  | cons c cs ih =>
    intro d
    rw [runCompletions_cons]
    exact (ih _).trans (endio_preserves d c.status c.isFirst).2.1

/-- Completions never change the `multi_bio` flag. -/
lemma runCompletions_multi (l : List BioComp) :
    ∀ d : Dio, (runCompletions d l).d.multi_bio = d.multi_bio := by
  induction l with
  | nil => intro d; rfl
  | cons c cs ih =>
    intro d
    rw [runCompletions_cons]
    exact (ih _).trans (endio_preserves d c.status c.isFirst).1

/-- On a multi-bio aggregate, processing `m` completions decrements the
reference count by exactly `m`: the count tracks the Segments not yet
completed. -/
lemma runCompletions_ref (l : List BioComp) :
    ∀ d : Dio, d.multi_bio = true →
    (runCompletions d l).d.ref = d.ref - l.length := by
  induction l with
  | nil => intro d _; rfl
  | cons c cs ih =>
    intro d hm
    rw [runCompletions_cons]
    have hm' : (blkdev_bio_end_io d c.status c.isFirst).d.multi_bio = true :=
      ((endio_preserves d c.status c.isFirst).1).trans hm
    rw [ih _ hm', endio_ref d c.status c.isFirst hm, List.length_cons,
      Nat.sub_sub, Nat.add_comm]

/-- The sticky status after any arrival order: if the aggregate already
carries a non-ok status it is never overwritten; otherwise the final status
is the first non-ok status in arrival order. -/
lemma runCompletions_status (l : List BioComp) :
    ∀ d : Dio, (runCompletions d l).d.status =
      if d.status ≠ 0 then d.status
      else firstErr (l.map BioComp.status) := by
  induction l with
  | nil =>
    intro d
    by_cases h : d.status = 0 <;> simp [firstErr, h]
  | cons c cs ih =>
    intro d
    rw [runCompletions_cons]
    show (runCompletions (blkdev_bio_end_io d c.status c.isFirst).d cs).d.status = _
    rw [ih _, endio_status]
    by_cases h : d.status = 0
    · by_cases hc : c.status = 0
      · have hst : stickyStatus d.status c.status = 0 := by
          simp [stickyStatus, h, hc]
        rw [hst]
        simp [h, hc, firstErr]
      · have hst : stickyStatus d.status c.status = c.status := by
          simp [stickyStatus, h, hc]
        rw [hst]
        simp [h, hc, firstErr]
    · have hst : stickyStatus d.status c.status = d.status := by
        simp [stickyStatus, h]
      rw [hst]
      simp [h]

/-- Exactly one of the `k` completions of a `k`-bio aggregate (reference
count `k`, `multi_bio` set) runs the finalization branch, whatever
statuses arrive and in whatever order. -/
lemma runCompletions_finCount (l : List BioComp) :
    ∀ d : Dio, d.multi_bio = true → d.ref = l.length → l ≠ [] →
    (runCompletions d l).finCount = 1 := by
  induction l with
  | nil => intro d _ _ h; exact absurd rfl h
  | cons c cs ih =>
    intro d hm hr _
    rw [runCompletions_cons]
    cases cs with
    | nil =>
      have hr' : d.ref = 1 := by simpa using hr
      have hlast : d.multi_bio = false ∨ d.ref - 1 = 0 := Or.inr (by omega)
      by_cases hs : d.is_sync = true
      · rw [endio_last_sync d c.status c.isFirst hlast hs]
        simp
      · rw [endio_last_async d c.status c.isFirst hlast
          (by revert hs; cases d.is_sync <;> simp)]
        simp
    | cons c' cs' =>
      have hr' : d.ref = cs'.length + 2 := by simpa using hr
      have hr1 : d.ref - 1 ≠ 0 := by omega
      rw [endio_notLast d c.status c.isFirst hm hr1]
      have := ih { d with
          status := stickyStatus d.status c.status,
          ref := d.ref - 1,
          firstRef := d.firstRef - (if c.isFirst then 1 else 0) }
        (by simp [hm]) (by simp [hr]) (by simp)
      simpa using this

/-- On a sync aggregate no `ki_complete` report is ever issued. -/
lemma runCompletions_reports_sync (l : List BioComp) :
    ∀ d : Dio, d.is_sync = true → (runCompletions d l).reports = [] := by
  induction l with
  | nil => intro d _; rfl
  | cons c cs ih =>
    intro d hs
    rw [runCompletions_cons]
    have hs' : (blkdev_bio_end_io d c.status c.isFirst).d.is_sync = true :=
      ((endio_preserves d c.status c.isFirst).2.2.1).trans hs
    by_cases h1 : ¬ d.multi_bio = true ∨ d.ref - 1 = 0
    · have hlast : d.multi_bio = false ∨ d.ref - 1 = 0 := by
        rcases h1 with h | h
        · exact Or.inl (by revert h; cases d.multi_bio <;> simp)
        · exact Or.inr h
      rw [endio_last_sync d c.status c.isFirst hlast hs] at hs' ⊢
      simpa using ih _ hs'
    · have hm : d.multi_bio = true := by
        by_contra hmm
        exact h1 (Or.inl hmm)
      have hr1 : d.ref - 1 ≠ 0 := fun hh => h1 (Or.inr hh)
      rw [endio_notLast d c.status c.isFirst hm hr1] at hs' ⊢
      simpa using ih _ hs'

/-- On an async multi-bio aggregate that already carries a non-ok status,
the full fan-in issues exactly one `ki_complete` report, carrying the
translated sticky error. -/
lemma runCompletions_reports_err (l : List BioComp) :
    ∀ d : Dio, d.multi_bio = true → d.is_sync = false → d.status ≠ 0 →
    d.ref = l.length → l ≠ [] →
    (runCompletions d l).reports = [blk_status_to_errno d.status] := by
  induction l with
  | nil => intro d _ _ _ _ h; exact absurd rfl h
  | cons c cs ih =>
    intro d hm hs hst hr _
    rw [runCompletions_cons]
    have hsticky : stickyStatus d.status c.status = d.status := by
      simp [stickyStatus, hst]
    cases cs with
    | nil =>
      have hr' : d.ref = 1 := by simpa using hr
      rw [endio_last_async d c.status c.isFirst (Or.inr (by omega)) hs]
      simp [hsticky, hst]
    | cons c' cs' =>
      have hr' : d.ref = cs'.length + 2 := by simpa using hr
      have hr1 : d.ref - 1 ≠ 0 := by omega
      rw [endio_notLast d c.status c.isFirst hm hr1]
      have := ih { d with
          status := stickyStatus d.status c.status,
          ref := d.ref - 1,
          firstRef := d.firstRef - (if c.isFirst then 1 else 0) }
        (by simp [hm]) (by simp [hs]) (by simp [hsticky, hst])
        (by simp [hr]) (by simp)
      simpa [hsticky] using this

/-- Reference count of the first bio across completions of an async
multi-bio aggregate: each completion of the first bio itself drops one
reference, and the finalization (which runs exactly when all `ref`
completions are in) drops the extra ownership reference. -/
lemma runCompletions_firstRef (l : List BioComp) :
    ∀ d : Dio, d.multi_bio = true → d.is_sync = false →
    1 ≤ d.ref → l.length ≤ d.ref →
    (runCompletions d l).d.firstRef =
      d.firstRef - ((l.countP (fun c => c.isFirst)) +
        (if l.length = d.ref then 1 else 0)) := by
  induction l with
  | nil =>
    intro d _ _ h1 _
    have h0 : ¬ (0 = d.ref) := by omega
    simp [h0]
  | cons c cs ih =>
    intro d hm hs h1 hlen
    have hlen' : cs.length + 1 ≤ d.ref := by simpa using hlen
    rw [runCompletions_cons]
    by_cases hlast : d.ref = 1
    · have hcs : cs = [] := List.eq_nil_of_length_eq_zero (by omega)
      subst hcs
      rw [endio_last_async d c.status c.isFirst (Or.inr (by omega)) hs]
      simp only [runCompletions_nil, List.countP_cons, List.countP_nil,
        List.length_cons, List.length_nil, hm, hlast]
      cases hcf : c.isFirst <;> simp [hcf]
    · have hr1 : d.ref - 1 ≠ 0 := by omega
      rw [endio_notLast d c.status c.isFirst hm hr1]
      rw [ih _ (by simp [hm]) (by simp [hs]) (by simp only; omega)
        (by simp only; omega)]
      simp only [List.countP_cons, List.length_cons]
      by_cases hc : c.isFirst = true <;>
        by_cases he : cs.length + 1 = d.ref <;>
        have he' : (cs.length = d.ref - 1) ↔ (cs.length + 1 = d.ref) := by
          omega
      all_goals simp [hc, he, he', Nat.sub_sub] <;> omega

/-! ### Branch characterizations of the submission loop -/

/-- Last bio of the request (`!nr_pages` after get_pages): account the
bytes and submit it. -/
lemma dioStep_last (nw : Bool) (d : Dio) (n : Nat) (c : Chunk)
    (he : c.err = 0) :
    dioStep nw d n c 0 = .last { d with size := d.size + c.len } c.len := by
  simp [dioStep, he]

/-- The `multi_bio` transition: more data remains after the first bio, so
set `multi_bio`, set the reference count to 2 and (async only) take the
extra reference on the first bio, then submit and continue. -/
lemma dioStep_transition (d : Dio) (n : Nat) (c : Chunk) (r : Nat)
    (he : c.err = 0) (hr : r ≠ 0) (hm : d.multi_bio = false) :
    dioStep false d n c r = .cont { d with
      size := d.size + c.len,
      multi_bio := true,
      ref := 2,
      firstRef := d.firstRef + (if d.is_sync then 0 else 1) } c.len := by
  simp [dioStep, he, hr, hm]

/-- Every further bio after the transition: increment the reference count,
submit, continue. -/
lemma dioStep_inc (d : Dio) (n : Nat) (c : Chunk) (r : Nat)
    (he : c.err = 0) (hr : r ≠ 0) (hm : d.multi_bio = true) :
    dioStep false d n c r =
      .cont { d with size := d.size + c.len, ref := d.ref + 1 } c.len := by
  simp [dioStep, he, hr, hm]

/-- Page-acquisition failure: the bio is failed in place with
BLK_STS_IOERR and completed through `bio_endio`. -/
lemma dioStep_fail (nw : Bool) (d : Dio) (n : Nat) (c : Chunk) (r : Nat)
    (hf : c.err ≠ 0) :
    dioStep nw d n c r =
      .failStop (blkdev_bio_end_io d BLK_STS_IOERR (decide (n = 0))).d
        (blkdev_bio_end_io d BLK_STS_IOERR (decide (n = 0))).finalized
        (blkdev_bio_end_io d BLK_STS_IOERR (decide (n = 0))).report c.err := by
  simp [dioStep, hf]

/-- NOWAIT with data left after this bio: abort. -/
lemma dioStep_nowait (d : Dio) (n : Nat) (c : Chunk) (r : Nat)
    (he : c.err = 0) (hr : r ≠ 0) :
    dioStep true d n c r = .abortNowait := by
  simp [dioStep, he, hr]

@[simp] lemma dioLoop_nil (nw : Bool) (d : Dio) (sub : List Nat) :
    dioLoop nw d sub [] = .proceed d sub 0 0 := rfl

lemma dioLoop_cons (nw : Bool) (d : Dio) (sub : List Nat) (c : Chunk)
    (cs : List Chunk) :
    dioLoop nw d sub (c :: cs) =
      match dioStep nw d sub.length c (iov_iter_count cs) with
      | .cont d' sz => dioLoop nw d' (sub ++ [sz]) cs
      | .last d' sz => .proceed d' (sub ++ [sz]) 0 0
      | .failStop d' fin _ ret => .proceed d' sub ret (if fin then 1 else 0)
      | .abortNowait => .eagain false sub d.size := rfl

/-- Running the loop over all-ok chunks from a `multi_bio` state: every
chunk becomes a submitted bio, the byte total grows by the full remaining
count, and the reference count grows by one per additional bio. -/
lemma dioLoop_allOk_multi (cs : List Chunk) :
    ∀ (d : Dio) (sub : List Nat), allOk cs → cs ≠ [] →
    d.multi_bio = true →
    dioLoop false d sub cs =
      .proceed { d with
        size := d.size + iov_iter_count cs,
        ref := d.ref + (cs.length - 1) }
        (sub ++ cs.map Chunk.len) 0 0 := by
  induction cs with
  | nil => intro d sub _ h _; exact absurd rfl h
  | cons c cs ih =>
    intro d sub hok _ hm
    obtain ⟨⟨hce, _⟩, hok'⟩ := allOk_of_cons hok
    rw [dioLoop_cons]
    cases cs with
    | nil =>
      rw [iov_iter_count_nil, dioStep_last false d sub.length c hce]
      simp
    | cons c' cs' =>
      have hrest : iov_iter_count (c' :: cs') ≠ 0 :=
        iov_iter_count_pos_of_allOk hok' (by simp)
      rw [dioStep_inc d sub.length c _ hce hrest hm]
      dsimp only
      rw [ih _ (sub ++ [c.len]) hok' (by simp) (by simp [hm])]
      simp only [SubOut.proceed.injEq, List.append_assoc, List.map_cons,
        List.cons_append, List.nil_append, iov_iter_count_cons,
        List.length_cons]
      simp [Dio.mk.injEq]
      omega

/-- Characterization of a full all-ok run of the submission loop from the
initial aggregate: it produces exactly `finalDio`, with one submitted bio
per chunk, ret 0 and no self-completion. -/
lemma dioLoop_allOk_run (is_sync sd : Bool) (cs : List Chunk)
    (hok : allOk cs) (hne : cs ≠ []) :
    dioLoop false (mkDio is_sync sd) [] cs =
      .proceed (finalDio is_sync sd cs) (cs.map Chunk.len) 0 0 := by
  cases cs with
  | nil => exact absurd rfl hne
  | cons c cs =>
    obtain ⟨⟨hce, _⟩, hok'⟩ := allOk_of_cons hok
    rw [dioLoop_cons]
    cases cs with
    | nil =>
      rw [iov_iter_count_nil, dioStep_last false _ _ c hce]
      dsimp only
      have h21 : ¬ (2 ≤ ([c] : List Chunk).length) := by simp
      cases is_sync <;>
        simp [mkDio, finalDio, h21]
    | cons c' cs' =>
      have hrest : iov_iter_count (c' :: cs') ≠ 0 :=
        iov_iter_count_pos_of_allOk hok' (by simp)
      rw [dioStep_transition _ _ c _ hce hrest rfl]
      dsimp only
      rw [dioLoop_allOk_multi _ _ _ hok' (by simp) (by simp [mkDio])]
      have h2 : 2 ≤ (c :: c' :: cs').length := by simp
      cases hs : is_sync <;>
        simp [mkDio, finalDio, h2, SubOut.proceed.injEq, hs] <;>
        omega

/-- Running the loop over all-ok chunks followed by one failing chunk,
from a `multi_bio` state with at least one bio already submitted: the good
chunks are all submitted, the failing bio is completed in place (recording
BLK_STS_IOERR into the sticky status and consuming one fan-in reference,
not the last), and the loop breaks with the get_pages errno. -/
lemma dioLoop_failEnd_multi (good : List Chunk) :
    ∀ (d : Dio) (sub : List Nat) (f : Chunk), allOk good →
    d.multi_bio = true → 2 ≤ d.ref → sub ≠ [] →
    f.err ≠ 0 → 0 < f.len →
    dioLoop false d sub (good ++ [f]) =
      .proceed { d with
        size := d.size + iov_iter_count good,
        ref := d.ref + good.length - 1,
        status := stickyStatus d.status BLK_STS_IOERR }
        (sub ++ good.map Chunk.len) f.err 0 := by
  induction good with
  | nil =>
    intro d sub f _ hm hr hsub hf _
    rw [List.nil_append, dioLoop_cons, iov_iter_count_nil]
    rw [dioStep_fail false d sub.length f 0 hf]
    have hn0 : ¬ (sub.length = 0) := by
      cases sub with
      | nil => exact absurd rfl hsub
      | cons a l => simp
    have hr1 : d.ref - 1 ≠ 0 := by omega
    rw [endio_notLast d BLK_STS_IOERR (decide (sub.length = 0)) hm hr1]
    dsimp only
    simp [hn0]
  | cons g good' ih =>
    intro d sub f hok hm hr hsub hf hfl
    obtain ⟨⟨hge, _⟩, hok'⟩ := allOk_of_cons hok
    rw [List.cons_append, dioLoop_cons]
    have hrest : iov_iter_count (good' ++ [f]) ≠ 0 := by
      simp [iov_iter_count]
      omega
    rw [dioStep_inc d sub.length g _ hge hrest hm]
    dsimp only
    rw [ih _ (sub ++ [g.len]) f hok' (by simp [hm]) (by dsimp only; omega)
      (by simp) hf hfl]
    simp only [SubOut.proceed.injEq, List.append_assoc, List.map_cons,
      List.cons_append, List.nil_append, iov_iter_count_cons,
      List.length_cons]
    simp [Dio.mk.injEq]
    omega

/-- Characterization of a run whose final get_pages call fails, from the
initial aggregate, with a nonempty prefix of successful bios: the result
is exactly `failDio`, the good bios stay submitted, ret carries the
errno, and no finalization ran during submission. -/
lemma dioLoop_failEnd_run (is_sync sd : Bool) (good : List Chunk) (f : Chunk)
    (hok : allOk good) (hg : good ≠ []) (hf : f.err ≠ 0) (hfl : 0 < f.len) :
    dioLoop false (mkDio is_sync sd) [] (good ++ [f]) =
      .proceed (failDio is_sync sd good) (good.map Chunk.len) f.err 0 := by
  cases good with
  | nil => exact absurd rfl hg
  | cons g good' =>
    obtain ⟨⟨hge, _⟩, hok'⟩ := allOk_of_cons hok
    rw [List.cons_append, dioLoop_cons]
    have hrest : iov_iter_count (good' ++ [f]) ≠ 0 := by
      simp [iov_iter_count]
      omega
    rw [dioStep_transition _ _ g _ hge hrest rfl]
    dsimp only
    rw [List.nil_append]
    rw [dioLoop_failEnd_multi good'
      ⟨(mkDio is_sync sd).size + g.len, (mkDio is_sync sd).status, true, 2,
        (mkDio is_sync sd).is_sync, (mkDio is_sync sd).should_dirty,
        (mkDio is_sync sd).waiter,
        (mkDio is_sync sd).firstRef +
          if (mkDio is_sync sd).is_sync = true then 0 else 1⟩
      [g.len] f hok' rfl (by norm_num) (by simp) hf hfl]
    have hsticky : stickyStatus 0 BLK_STS_IOERR = BLK_STS_IOERR := by decide
    cases hs : is_sync <;>
      simp [mkDio, failDio, hs, SubOut.proceed.injEq, Dio.mk.injEq,
        hsticky] <;>
      omega

/-- The byte-accounting invariant holds for every run of the submission
loop, whatever the chunks, the NOWAIT flag and the aggregate mode. -/
lemma dioLoop_sizeInv (cs : List Chunk) :
    ∀ (nw : Bool) (d : Dio) (sub : List Nat), d.size = sub.sum →
    sizeInv (dioLoop nw d sub cs) := by
  induction cs with
  | nil => intro nw d sub h; exact h
  | cons c cs ih =>
    intro nw d sub h
    rw [dioLoop_cons]
    by_cases hf : c.err = 0
    · by_cases hrest : iov_iter_count cs = 0
      · rw [hrest, dioStep_last nw d sub.length c hf]
        dsimp only [sizeInv]
        simp [h]
      · cases nw with
        | true =>
          rw [dioStep_nowait d sub.length c _ hf hrest]
          exact h
        | false =>
          by_cases hm : d.multi_bio = true
          · rw [dioStep_inc d sub.length c _ hf hrest hm]
            dsimp only
            exact ih false _ (sub ++ [c.len]) (by simp [h])
          · rw [dioStep_transition d sub.length c _ hf hrest
              (by simpa using hm)]
            dsimp only
            exact ih false _ (sub ++ [c.len]) (by simp [h])
    · rw [dioStep_fail nw d sub.length c _ hf]
      dsimp only [sizeInv]
      rw [(endio_preserves _ _ _).2.1]
      exact h

/-- The NOWAIT all-or-nothing abort: get_pages succeeded for the first bio
but bytes remain, so the loop releases the pages (not dirty), discards the
bio and returns -EAGAIN with whatever was submitted and accounted so far. -/
lemma dioLoop_nowait_abort (d : Dio) (sub : List Nat) (c : Chunk)
    (cs : List Chunk) (he : c.err = 0) (hrest : iov_iter_count cs ≠ 0) :
    dioLoop true d sub (c :: cs) = .eagain false sub d.size := by
  rw [dioLoop_cons, dioStep_nowait d sub.length c _ he hrest]

/-! ### The alignment gate of both paths -/

/-- A misaligned position or buffer layout makes the general path return
-EINVAL before any bio is built. -/
lemma general_misaligned (iocb : Kiocb) (iter : IovIter) (b : Nat)
    (h : ¬ (iocb.ki_pos % 2 ^ b = 0 ∧ iter.alignment % 2 ^ b = 0)) :
    blkdev_direct_IO_general iocb iter (2 ^ b) = .einval := by
  have hc : (iocb.ki_pos ||| iter.alignment) &&& (2 ^ b - 1) ≠ 0 := by
    intro hz
    exact h ((align_check_eq_zero _ _ _).mp hz)
  unfold blkdev_direct_IO_general
  rw [if_pos hc]

/-- On an aligned request the general path is the submission loop from the
freshly initialized aggregate. -/
lemma general_aligned (iocb : Kiocb) (iter : IovIter) (b : Nat)
    (hp : iocb.ki_pos % 2 ^ b = 0) (ha : iter.alignment % 2 ^ b = 0) :
    blkdev_direct_IO_general iocb iter (2 ^ b) =
      dioLoop iocb.nowait
        (mkDio iocb.is_sync (iter.is_read && iter.is_iovec))
        [] iter.chunks := by
  have hc : (iocb.ki_pos ||| iter.alignment) &&& (2 ^ b - 1) = 0 :=
    (align_check_eq_zero _ _ _).mpr ⟨hp, ha⟩
  unfold blkdev_direct_IO_general
  rw [if_neg (by simp [hc])]

/-- A misaligned position or buffer layout makes the simple path return
-EINVAL before any bio is built. -/
lemma simple_misaligned (iocb : Kiocb) (iter : IovIter) (b nr dev : Nat)
    (h : ¬ (iocb.ki_pos % 2 ^ b = 0 ∧ iter.alignment % 2 ^ b = 0)) :
    blkdev_direct_IO_simple iocb iter (2 ^ b) nr dev = .einval := by
  have hc : (iocb.ki_pos ||| iter.alignment) &&& (2 ^ b - 1) ≠ 0 := by
    intro hz
    exact h ((align_check_eq_zero _ _ _).mp hz)
  unfold blkdev_direct_IO_simple
  rw [if_pos hc]

/-- On an aligned simple-path request with a successfully filled bio, the
result is the device status translation with the storage decision
`nr_pages <= DIO_INLINE_BIO_VECS`. -/
lemma simple_aligned_ok (iocb : Kiocb) (iter : IovIter) (b nr dev : Nat)
    (c : Chunk) (rest : List Chunk)
    (hp : iocb.ki_pos % 2 ^ b = 0) (ha : iter.alignment % 2 ^ b = 0)
    (hch : iter.chunks = c :: rest) (hce : c.err = 0) :
    blkdev_direct_IO_simple iocb iter (2 ^ b) nr dev =
      .done (if dev ≠ 0 then blk_status_to_errno dev else (c.len : Int))
        (decide (nr ≤ DIO_INLINE_BIO_VECS)) := by
  have hc : (iocb.ki_pos ||| iter.alignment) &&& (2 ^ b - 1) = 0 :=
    (align_check_eq_zero _ _ _).mpr ⟨hp, ha⟩
  unfold blkdev_direct_IO_simple
  rw [if_neg (by simp [hc]), hch]
  dsimp only
  rw [if_neg (by simp [hce])]

/-! ### Projections of the derived final states -/

lemma finalDio_multi (s sd : Bool) (cs : List Chunk) (h : 2 ≤ cs.length) :
    (finalDio s sd cs).multi_bio = true := by
  simp [finalDio, h]

lemma finalDio_ref (s sd : Bool) (cs : List Chunk) (h : 2 ≤ cs.length) :
    (finalDio s sd cs).ref = cs.length := by
  simp [finalDio, h]

lemma finalDio_firstRef_async (sd : Bool) (cs : List Chunk)
    (h : 2 ≤ cs.length) : (finalDio false sd cs).firstRef = 2 := by
  simp [finalDio, h]

/-! ### The claims -/

/-- C1: for every aligned request split into `k > 1` bios (all get_pages
calls succeed, NOWAIT clear), the submission loop ends with the `k`-bio
aggregate and `k` in-flight bios, and the completion fan-in runs the
finalization branch exactly once — for the given arrival order and for any
permutation of it. -/
theorem claim_C1 (iocb : Kiocb) (iter : IovIter) (b k : Nat)
    (arrival arrival' : List BioComp)
    (hp : iocb.ki_pos % 2 ^ b = 0) (ha : iter.alignment % 2 ^ b = 0)
    (hnw : iocb.nowait = false) (hok : allOk iter.chunks)
    (hk : iter.chunks.length = k) (hk2 : 2 ≤ k)
    (hlen : arrival.length = k) (hperm : arrival.Perm arrival') :
    blkdev_direct_IO_general iocb iter (2 ^ b) =
      .proceed
        (finalDio iocb.is_sync (iter.is_read && iter.is_iovec) iter.chunks)
        (iter.chunks.map Chunk.len) 0 0 ∧
    (runCompletions
      (finalDio iocb.is_sync (iter.is_read && iter.is_iovec) iter.chunks)
      arrival).finCount = 1 ∧
    (runCompletions
      (finalDio iocb.is_sync (iter.is_read && iter.is_iovec) iter.chunks)
      arrival').finCount = 1 := by
  have hk2' : 2 ≤ iter.chunks.length := by omega
  have hne : iter.chunks ≠ [] := by
    intro h
    rw [h] at hk
    simp at hk
    omega
  have hrun := general_aligned iocb iter b hp ha
  rw [hnw] at hrun
  refine ⟨hrun.trans (dioLoop_allOk_run _ _ _ hok hne), ?_, ?_⟩
  · exact runCompletions_finCount arrival _ (finalDio_multi _ _ _ hk2')
      (by rw [finalDio_ref _ _ _ hk2', hk, hlen])
      (by intro h; rw [h] at hlen; simp at hlen; omega)
  · have hlen' : arrival'.length = k := by
      rw [← hperm.length_eq, hlen]
    exact runCompletions_finCount arrival' _ (finalDio_multi _ _ _ hk2')
      (by rw [finalDio_ref _ _ _ hk2', hk, hlen'])
      (by intro h; rw [h] at hlen'; simp at hlen'; omega)

/-- C1 witness: a concrete async two-bio request; both arrival orders of
its two completions finalize exactly once. -/
theorem claim_C1_witness :
    ((0 : Nat) % 2 ^ 9 = 0) ∧ ((0 : Nat) % 2 ^ 9 = 0) ∧
    allOk [⟨512, 0⟩, ⟨1024, 0⟩] ∧
    ([(⟨0, false⟩ : BioComp), ⟨7, true⟩].Perm [⟨7, true⟩, ⟨0, false⟩]) ∧
    (blkdev_direct_IO_general ⟨0, false, false, false⟩
        ⟨0, false, false, 3, [⟨512, 0⟩, ⟨1024, 0⟩]⟩ (2 ^ 9) =
      .proceed (finalDio false (false && false) [⟨512, 0⟩, ⟨1024, 0⟩])
        [512, 1024] 0 0 ∧
    (runCompletions (finalDio false (false && false) [⟨512, 0⟩, ⟨1024, 0⟩])
      [⟨0, false⟩, ⟨7, true⟩]).finCount = 1 ∧
    (runCompletions (finalDio false (false && false) [⟨512, 0⟩, ⟨1024, 0⟩])
      [⟨7, true⟩, ⟨0, false⟩]).finCount = 1) :=
  ⟨by decide, by decide, by decide, by decide,
    claim_C1 ⟨0, false, false, false⟩ ⟨0, false, false, 3, [⟨512, 0⟩, ⟨1024, 0⟩]⟩
      9 2 [⟨0, false⟩, ⟨7, true⟩] [⟨7, true⟩, ⟨0, false⟩]
      (by decide) (by decide) rfl (by decide) rfl (by decide) rfl (by decide)⟩

/-- C2: an aligned NOWAIT request whose iterator still has bytes left after
the first bio aborts whole: the first bio's pages are released with the
dirty argument `false`, the bio is discarded, the return is -EAGAIN, and
zero bios were submitted with zero bytes accounted. -/
theorem claim_C2 (iocb : Kiocb) (iter : IovIter) (b : Nat) (c : Chunk)
    (cs : List Chunk)
    (hp : iocb.ki_pos % 2 ^ b = 0) (ha : iter.alignment % 2 ^ b = 0)
    (hnw : iocb.nowait = true) (hch : iter.chunks = c :: cs)
    (hce : c.err = 0) (hrest : iov_iter_count cs ≠ 0) :
    blkdev_direct_IO_general iocb iter (2 ^ b) = .eagain false [] 0 := by
  rw [general_aligned iocb iter b hp ha, hnw, hch,
    dioLoop_nowait_abort _ _ _ _ hce hrest]
  rfl

/-- C2 witness: a concrete aligned NOWAIT request needing two bios fails
with -EAGAIN, nothing submitted, zero bytes. -/
theorem claim_C2_witness :
    ((0 : Nat) % 2 ^ 9 = 0) ∧ (iov_iter_count [⟨512, 0⟩] ≠ 0) ∧
    blkdev_direct_IO_general ⟨0, false, true, false⟩
      ⟨0, false, false, 300, [⟨1024, 0⟩, ⟨512, 0⟩]⟩ (2 ^ 9) =
      .eagain false [] 0 :=
  ⟨by decide, by decide,
    claim_C2 ⟨0, false, true, false⟩ ⟨0, false, false, 300, [⟨1024, 0⟩, ⟨512, 0⟩]⟩
      9 ⟨1024, 0⟩ [⟨512, 0⟩] (by decide) (by decide) rfl rfl rfl (by decide)⟩

/-- C3: starting from an ok sticky status, the final status after any
sequence of completions, in any arrival order, is the first non-ok status
recorded; and a non-ok sticky status is never overwritten by any later
completion, error or ok. -/
theorem claim_C3 (d : Dio) (arrival : List BioComp) (d' : Dio)
    (l' : List BioComp) (h : d.status = 0) (h' : d'.status ≠ 0) :
    (runCompletions d arrival).d.status =
      firstErr (arrival.map BioComp.status) ∧
    (runCompletions d' l').d.status = d'.status := by
  constructor
  · rw [runCompletions_status]
    simp [h]
  · rw [runCompletions_status]
    simp [h']

/-- C3 witness: statuses [ok, 5, 7] arriving in that order yield sticky
status 5, and an aggregate already carrying status 5 keeps it across
further completions. -/
theorem claim_C3_witness :
    ((mkDio false false).status = 0) ∧
    (({ mkDio false false with status := 5 } : Dio).status ≠ 0) ∧
    ((runCompletions (mkDio false false)
        [⟨0, false⟩, ⟨5, false⟩, ⟨7, true⟩]).d.status =
      firstErr [0, 5, 7] ∧
    (runCompletions ({ mkDio false false with status := 5 } : Dio)
        [⟨7, false⟩, ⟨0, true⟩]).d.status = 5) :=
  ⟨by decide, by decide,
    claim_C3 (mkDio false false) [⟨0, false⟩, ⟨5, false⟩, ⟨7, true⟩]
      ({ mkDio false false with status := 5 } : Dio) [⟨7, false⟩, ⟨0, true⟩]
      rfl (by decide)⟩

/-- C4: `multi_bio` starts false; the loop step sets it (together with
`ref := 2`) exactly at the moment a second bio is about to be built, and
from a `multi_bio` state every further bio increments `ref` by one while
`multi_bio` stays set (the completion callback never clears it either); at
the end of an all-ok `k`-bio submission (`k ≥ 2`) the aggregate has
`multi_bio` set and `ref = k`, and after `m` completions the count is
`k - m`: the number of bios not yet completed. -/
theorem claim_C4 (iocb : Kiocb) (iter : IovIter) (b : Nat)
    (d₀ : Dio) (c₀ : Chunk) (n₀ r₀ : Nat)
    (d₁ : Dio) (c₁ : Chunk) (n₁ r₁ s₂ : Nat) (f₂ : Bool)
    (m : Nat) (arrival : List BioComp)
    (hp : iocb.ki_pos % 2 ^ b = 0) (ha : iter.alignment % 2 ^ b = 0)
    (hnw : iocb.nowait = false) (hok : allOk iter.chunks)
    (hk2 : 2 ≤ iter.chunks.length)
    (h₀m : d₀.multi_bio = false) (h₀e : c₀.err = 0) (h₀r : r₀ ≠ 0)
    (h₁m : d₁.multi_bio = true) (h₁e : c₁.err = 0) (h₁r : r₁ ≠ 0)
    (hlen : arrival.length = m) :
    (mkDio iocb.is_sync (iter.is_read && iter.is_iovec)).multi_bio = false ∧
    dioStep false d₀ n₀ c₀ r₀ = .cont { d₀ with
      size := d₀.size + c₀.len,
      multi_bio := true,
      ref := 2,
      firstRef := d₀.firstRef + (if d₀.is_sync then 0 else 1) } c₀.len ∧
    dioStep false d₁ n₁ c₁ r₁ =
      .cont { d₁ with size := d₁.size + c₁.len, ref := d₁.ref + 1 } c₁.len ∧
    (blkdev_bio_end_io d₁ s₂ f₂).d.multi_bio = true ∧
    blkdev_direct_IO_general iocb iter (2 ^ b) =
      .proceed
        (finalDio iocb.is_sync (iter.is_read && iter.is_iovec) iter.chunks)
        (iter.chunks.map Chunk.len) 0 0 ∧
    (finalDio iocb.is_sync (iter.is_read && iter.is_iovec)
      iter.chunks).multi_bio = true ∧
    (finalDio iocb.is_sync (iter.is_read && iter.is_iovec)
      iter.chunks).ref = iter.chunks.length ∧
    (runCompletions
      (finalDio iocb.is_sync (iter.is_read && iter.is_iovec) iter.chunks)
      arrival).d.ref = iter.chunks.length - m := by
  have hne : iter.chunks ≠ [] := by
    intro h
    rw [h] at hk2
    simp at hk2
  have hrun := general_aligned iocb iter b hp ha
  rw [hnw] at hrun
  refine ⟨rfl, dioStep_transition d₀ n₀ c₀ r₀ h₀e h₀r h₀m,
    dioStep_inc d₁ n₁ c₁ r₁ h₁e h₁r h₁m,
    ((endio_preserves d₁ s₂ f₂).1).trans h₁m,
    hrun.trans (dioLoop_allOk_run _ _ _ hok hne),
    finalDio_multi _ _ _ hk2, finalDio_ref _ _ _ hk2, ?_⟩
  rw [runCompletions_ref arrival _ (finalDio_multi _ _ _ hk2),
    finalDio_ref _ _ _ hk2, hlen]

/-- C4 witness: a concrete sync three-bio request; the transition step, an
increment step, the end-of-submission state and the count after two of the
three completions, all at concrete values. -/
theorem claim_C4_witness :
    ((0 : Nat) % 2 ^ 9 = 0) ∧ allOk [⟨512, 0⟩, ⟨512, 0⟩, ⟨512, 0⟩] ∧
    ((mkDio true false).multi_bio = false) ∧
    ((finalDio true (false && false)
      [⟨512, 0⟩, ⟨512, 0⟩, ⟨512, 0⟩]).multi_bio = true) ∧
    ((finalDio true (false && false) [⟨512, 0⟩, ⟨512, 0⟩, ⟨512, 0⟩]).ref = 3) ∧
    ((runCompletions (finalDio true (false && false)
        [⟨512, 0⟩, ⟨512, 0⟩, ⟨512, 0⟩])
      [⟨0, false⟩, ⟨0, false⟩]).d.ref = 3 - 2) :=
  ⟨by decide, by decide, by decide, by decide, by decide,
    (claim_C4 ⟨0, true, false, false⟩
      ⟨0, false, false, 300, [⟨512, 0⟩, ⟨512, 0⟩, ⟨512, 0⟩]⟩ 9
      (mkDio true false) ⟨512, 0⟩ 0 1024
      (finalDio true false [⟨1, 0⟩, ⟨1, 0⟩]) ⟨512, 0⟩ 1 512 5 false
      2 [⟨0, false⟩, ⟨0, false⟩]
      (by decide) (by decide) rfl (by decide) (by decide)
      rfl rfl (by decide) (by decide) rfl (by decide) rfl).2.2.2.2.2.2.2⟩

/-- C5: the aggregate's byte total equals the sum of the sizes of the bios
actually submitted to the device queue, for every outcome of the general
path (normal end, get_pages failure, NOWAIT abort), and completions never
change it; a short transfer therefore reports the true transferred
length, never the caller-requested one. -/
theorem claim_C5 (iocb : Kiocb) (iter : IovIter) (lbs : Nat) (d : Dio)
    (l : List BioComp) :
    sizeInv (blkdev_direct_IO_general iocb iter lbs) ∧
    (runCompletions d l).d.size = d.size := by
  constructor
  · unfold blkdev_direct_IO_general
    by_cases hc : (iocb.ki_pos ||| iter.alignment) &&& (lbs - 1) ≠ 0
    · rw [if_pos hc]
      trivial
    · rw [if_neg hc]
      exact dioLoop_sizeInv _ _ _ _ rfl
  · exact runCompletions_size l d

/-- C6: a non-empty request whose position or buffer alignment is not a
multiple of the logical block size `2 ^ b` is rejected with -EINVAL by
both the general path and the simple path, before any bio is built. -/
theorem claim_C6 (iocb : Kiocb) (iter : IovIter) (b nr dev : Nat)
    (_hne : iov_iter_count iter.chunks ≠ 0)
    (hmis : ¬ (iocb.ki_pos % 2 ^ b = 0) ∨ ¬ (iter.alignment % 2 ^ b = 0)) :
    blkdev_direct_IO_general iocb iter (2 ^ b) = .einval ∧
    blkdev_direct_IO_simple iocb iter (2 ^ b) nr dev = .einval := by
  have h : ¬ (iocb.ki_pos % 2 ^ b = 0 ∧ iter.alignment % 2 ^ b = 0) := by
    tauto
  exact ⟨general_misaligned _ _ _ h, simple_misaligned _ _ _ _ _ h⟩

/-- C6 witness: offset 1 against block size 512 is rejected by both paths. -/
theorem claim_C6_witness :
    (iov_iter_count [(⟨512, 0⟩ : Chunk)] ≠ 0) ∧
    (¬ ((1 : Nat) % 2 ^ 9 = 0) ∨ ¬ ((0 : Nat) % 2 ^ 9 = 0)) ∧
    (blkdev_direct_IO_general ⟨1, true, false, false⟩
        ⟨0, false, false, 1, [⟨512, 0⟩]⟩ (2 ^ 9) = .einval ∧
    blkdev_direct_IO_simple ⟨1, true, false, false⟩
        ⟨0, false, false, 1, [⟨512, 0⟩]⟩ (2 ^ 9) 1 0 = .einval) :=
  ⟨by decide, by decide,
    claim_C6 ⟨1, true, false, false⟩ ⟨0, false, false, 1, [⟨512, 0⟩]⟩ 9 1 0
      (by decide) (by decide)⟩

/-- C7 counterexample (sync multi-Segment request): at the `multi_bio`
transition of a synchronous two-bio request no extra reference is taken on
the first bio — the step leaves `firstRef` at 2, the two references being
the allocation reference and the sync-mode `bio_get` taken at submission
start — and after both completions the Completion Engine leaves
`firstRef = 1`: the storage is released by the waiter (the `bio_put` after
the wait loop, modelled by `syncFinish`), not by the Completion Engine. -/
theorem claim_C7_counterexample :
    blkdev_direct_IO_general ⟨0, true, false, false⟩
        ⟨0, false, false, 2, [⟨512, 0⟩, ⟨512, 0⟩]⟩ (2 ^ 9) =
      .proceed (finalDio true (false && false) [⟨512, 0⟩, ⟨512, 0⟩])
        [512, 512] 0 0 ∧
    (finalDio true (false && false) [⟨512, 0⟩, ⟨512, 0⟩]).firstRef = 2 ∧
    dioStep false { mkDio true false with size := 512 } 1 ⟨512, 0⟩ 512 =
      .cont { mkDio true false with
        size := 1024, multi_bio := true, ref := 2 } 512 ∧
    ({ mkDio true false with size := 512 } : Dio).firstRef = 2 ∧
    ({ mkDio true false with
        size := 1024, multi_bio := true, ref := 2 } : Dio).firstRef = 2 ∧
    (runCompletions (finalDio true (false && false) [⟨512, 0⟩, ⟨512, 0⟩])
        [⟨0, true⟩, ⟨0, false⟩]).finCount = 1 ∧
    (runCompletions (finalDio true (false && false) [⟨512, 0⟩, ⟨512, 0⟩])
        [⟨0, true⟩, ⟨0, false⟩]).d.firstRef = 1 ∧
    (syncFinish 0 (runCompletions (finalDio true (false && false)
        [⟨512, 0⟩, ⟨512, 0⟩]) [⟨0, true⟩, ⟨0, false⟩]).d).2.firstRef = 0 := by
  decide

/-- C7 (amended to asynchronous requests, which is what the code's
`if (!is_sync) bio_get(bio)` implements): for every async multi-Segment
request the engine takes the extra ownership reference on the first bio
exactly at the `multi_bio` transition, the submission ends with two
references on the first bio, every proper prefix of the completions leaves
at least one reference (the aggregate outlives every other bio), and the
full fan-in drops the count to zero with exactly one finalization — the
storage is released exactly once, by the Completion Engine, at the last
fan-in. -/
theorem claim_C7 (iocb : Kiocb) (iter : IovIter) (b m : Nat)
    (arrival : List BioComp) (d₀ : Dio) (c₀ : Chunk) (n₀ r₀ : Nat)
    (hs : iocb.is_sync = false)
    (hp : iocb.ki_pos % 2 ^ b = 0) (ha : iter.alignment % 2 ^ b = 0)
    (hnw : iocb.nowait = false) (hok : allOk iter.chunks)
    (hk2 : 2 ≤ iter.chunks.length)
    (hlen : arrival.length = iter.chunks.length)
    (hone : arrival.countP (fun c => c.isFirst) = 1)
    (hm : m < iter.chunks.length)
    (h₀s : d₀.is_sync = false) (h₀m : d₀.multi_bio = false)
    (h₀e : c₀.err = 0) (h₀r : r₀ ≠ 0) :
    dioStep false d₀ n₀ c₀ r₀ = .cont { d₀ with
      size := d₀.size + c₀.len,
      multi_bio := true,
      ref := 2,
      firstRef := d₀.firstRef + 1 } c₀.len ∧
    blkdev_direct_IO_general iocb iter (2 ^ b) =
      .proceed (finalDio false (iter.is_read && iter.is_iovec) iter.chunks)
        (iter.chunks.map Chunk.len) 0 0 ∧
    (finalDio false (iter.is_read && iter.is_iovec) iter.chunks).firstRef
      = 2 ∧
    1 ≤ (runCompletions
      (finalDio false (iter.is_read && iter.is_iovec) iter.chunks)
      (arrival.take m)).d.firstRef ∧
    (runCompletions
      (finalDio false (iter.is_read && iter.is_iovec) iter.chunks)
      arrival).d.firstRef = 0 ∧
    (runCompletions
      (finalDio false (iter.is_read && iter.is_iovec) iter.chunks)
      arrival).finCount = 1 := by
  have hne : iter.chunks ≠ [] := by
    intro h
    rw [h] at hk2
    simp at hk2
  have hrun := general_aligned iocb iter b hp ha
  rw [hnw, hs] at hrun
  have hmulti := finalDio_multi false (iter.is_read && iter.is_iovec)
    iter.chunks hk2
  have href := finalDio_ref false (iter.is_read && iter.is_iovec)
    iter.chunks hk2
  have hfr := finalDio_firstRef_async (iter.is_read && iter.is_iovec)
    iter.chunks hk2
  have hsync : (finalDio false (iter.is_read && iter.is_iovec)
      iter.chunks).is_sync = false := rfl
  refine ⟨?_, hrun.trans (dioLoop_allOk_run _ _ _ hok hne), hfr, ?_, ?_, ?_⟩
  · rw [dioStep_transition d₀ n₀ c₀ r₀ h₀e h₀r h₀m, h₀s]
    simp
  · have htake_len : (arrival.take m).length = m := by
      rw [List.length_take]
      omega
    rw [runCompletions_firstRef (arrival.take m) _ hmulti hsync
      (by rw [href]; omega) (by rw [htake_len, href]; omega),
      hfr, htake_len, href]
    have hsplit : (arrival.take m).countP (fun c => c.isFirst) ≤ 1 := by
      have hc : arrival.countP (fun c => c.isFirst) =
          (arrival.take m).countP (fun c => c.isFirst) +
          (arrival.drop m).countP (fun c => c.isFirst) := by
        conv_lhs => rw [← List.take_append_drop m arrival]
        rw [List.countP_append]
      omega
    have hne' : ¬ (m = iter.chunks.length) := by omega
    simp [hne']
    omega
  · rw [runCompletions_firstRef arrival _ hmulti hsync
      (by rw [href]; omega) (by rw [hlen, href]),
      hfr, hone, hlen, href]
    simp
  · exact runCompletions_finCount arrival _ hmulti (by rw [href, hlen])
      (by intro h; rw [h] at hlen; simp at hlen; omega)

/-- C7 witness: a concrete async two-bio request under one arrival order
(first bio completing last). -/
theorem claim_C7_witness :
    allOk [⟨512, 0⟩, ⟨512, 0⟩] ∧
    (([(⟨0, false⟩ : BioComp), ⟨0, true⟩].countP (fun c => c.isFirst)) = 1) ∧
    (dioStep false (mkDio false false) 0 ⟨512, 0⟩ 512 =
      .cont { mkDio false false with
        size := 512, multi_bio := true, ref := 2,
        firstRef := (mkDio false false).firstRef + 1 } 512 ∧
    blkdev_direct_IO_general ⟨0, false, false, false⟩
        ⟨0, false, false, 300, [⟨512, 0⟩, ⟨512, 0⟩]⟩ (2 ^ 9) =
      .proceed (finalDio false (false && false) [⟨512, 0⟩, ⟨512, 0⟩])
        [512, 512] 0 0 ∧
    (finalDio false (false && false) [⟨512, 0⟩, ⟨512, 0⟩]).firstRef = 2 ∧
    1 ≤ (runCompletions (finalDio false (false && false)
        [⟨512, 0⟩, ⟨512, 0⟩])
      (List.take 1 [⟨0, false⟩, ⟨0, true⟩])).d.firstRef ∧
    (runCompletions (finalDio false (false && false) [⟨512, 0⟩, ⟨512, 0⟩])
      [⟨0, false⟩, ⟨0, true⟩]).d.firstRef = 0 ∧
    (runCompletions (finalDio false (false && false) [⟨512, 0⟩, ⟨512, 0⟩])
      [⟨0, false⟩, ⟨0, true⟩]).finCount = 1) :=
  ⟨by decide, by decide,
    claim_C7 ⟨0, false, false, false⟩
      ⟨0, false, false, 300, [⟨512, 0⟩, ⟨512, 0⟩]⟩ 9 1
      [⟨0, false⟩, ⟨0, true⟩] (mkDio false false) ⟨512, 0⟩ 0 512
      rfl (by decide) (by decide) rfl (by decide) (by decide) rfl
      (by decide) (by decide) rfl rfl rfl (by decide)⟩

/-- C8: when a get_pages call fails after `good` bios were already
submitted, the failing bio is completed in place through the normal
callback (recording BLK_STS_IOERR into the sticky status, consuming its
fan-in reference without finalizing), the `good` sibling bios stay
submitted, and once their completions arrive (any order) the request
finalizes exactly once with a non-ok status: async mode reports the
translated error through `ki_complete`, sync mode returns the get_pages
errno — the request is never silently dropped. -/
theorem claim_C8 (iocb : Kiocb) (iter : IovIter) (b : Nat)
    (good : List Chunk) (f : Chunk) (arrival : List BioComp)
    (hp : iocb.ki_pos % 2 ^ b = 0) (ha : iter.alignment % 2 ^ b = 0)
    (hnw : iocb.nowait = false)
    (hch : iter.chunks = good ++ [f]) (hok : allOk good) (hg : good ≠ [])
    (hf : f.err ≠ 0) (hfl : 0 < f.len)
    (hlen : arrival.length = good.length) :
    blkdev_direct_IO_general iocb iter (2 ^ b) =
      .proceed (failDio iocb.is_sync (iter.is_read && iter.is_iovec) good)
        (good.map Chunk.len) f.err 0 ∧
    (failDio iocb.is_sync (iter.is_read && iter.is_iovec) good).status
      = BLK_STS_IOERR ∧
    (runCompletions
      (failDio iocb.is_sync (iter.is_read && iter.is_iovec) good)
      arrival).finCount = 1 ∧
    (runCompletions
      (failDio iocb.is_sync (iter.is_read && iter.is_iovec) good)
      arrival).d.status ≠ 0 ∧
    (runCompletions
      (failDio iocb.is_sync (iter.is_read && iter.is_iovec) good)
      arrival).reports =
      (if iocb.is_sync = true then []
       else [blk_status_to_errno BLK_STS_IOERR]) ∧
    (syncFinish f.err (runCompletions
      (failDio iocb.is_sync (iter.is_read && iter.is_iovec) good)
      arrival).d).1 = f.err := by
  have hrun := general_aligned iocb iter b hp ha
  rw [hnw] at hrun
  have hglen : 1 ≤ good.length := by
    cases good with
    | nil => exact absurd rfl hg
    | cons _ _ => simp
  have harr : arrival ≠ [] := by
    intro h
    rw [h] at hlen
    simp at hlen
    omega
  have hmulti : (failDio iocb.is_sync (iter.is_read && iter.is_iovec)
      good).multi_bio = true := rfl
  have hst : (failDio iocb.is_sync (iter.is_read && iter.is_iovec)
      good).status = BLK_STS_IOERR := rfl
  refine ⟨(hch ▸ hrun).trans (dioLoop_failEnd_run _ _ good f hok hg hf hfl),
    rfl, ?_, ?_, ?_, ?_⟩
  · exact runCompletions_finCount arrival _ hmulti hlen.symm harr
  · rw [runCompletions_status]
    rw [hst]
    simp [BLK_STS_IOERR]
  · by_cases hsy : iocb.is_sync = true
    · rw [if_pos hsy]
      exact runCompletions_reports_sync arrival _ hsy
    · rw [if_neg hsy]
      have hsy' : iocb.is_sync = false := by
        revert hsy
        cases iocb.is_sync <;> simp
      exact runCompletions_reports_err arrival _ hmulti hsy'
        (by rw [hst]; decide) hlen.symm harr
  · simp [syncFinish, hf]

/-- C8 witness: an async request with two good bios and a failing third
get_pages call; siblings complete afterwards in a concrete order. -/
theorem claim_C8_witness :
    allOk [⟨1024, 0⟩, ⟨512, 0⟩] ∧
    ((⟨512, -14⟩ : Chunk).err ≠ 0) ∧
    (blkdev_direct_IO_general ⟨0, false, false, false⟩
        ⟨0, false, false, 300, [⟨1024, 0⟩, ⟨512, 0⟩, ⟨512, -14⟩]⟩ (2 ^ 9) =
      .proceed (failDio false (false && false) [⟨1024, 0⟩, ⟨512, 0⟩])
        [1024, 512] (-14) 0 ∧
    (failDio false (false && false) [⟨1024, 0⟩, ⟨512, 0⟩]).status
      = BLK_STS_IOERR ∧
    (runCompletions (failDio false (false && false) [⟨1024, 0⟩, ⟨512, 0⟩])
      [⟨0, true⟩, ⟨0, false⟩]).finCount = 1 ∧
    (runCompletions (failDio false (false && false) [⟨1024, 0⟩, ⟨512, 0⟩])
      [⟨0, true⟩, ⟨0, false⟩]).d.status ≠ 0 ∧
    (runCompletions (failDio false (false && false) [⟨1024, 0⟩, ⟨512, 0⟩])
      [⟨0, true⟩, ⟨0, false⟩]).reports =
      [blk_status_to_errno BLK_STS_IOERR] ∧
    (syncFinish (-14) (runCompletions (failDio false (false && false)
      [⟨1024, 0⟩, ⟨512, 0⟩]) [⟨0, true⟩, ⟨0, false⟩]).d).1 = -14) :=
  ⟨by decide, by decide,
    claim_C8 ⟨0, false, false, false⟩
      ⟨0, false, false, 300, [⟨1024, 0⟩, ⟨512, 0⟩, ⟨512, -14⟩]⟩ 9
      [⟨1024, 0⟩, ⟨512, 0⟩] ⟨512, -14⟩ [⟨0, true⟩, ⟨0, false⟩]
      (by decide) (by decide) rfl rfl (by decide) (by decide) (by decide)
      (by decide) rfl⟩

/-- C9 counterexample: a synchronous request needing 5 pages — more than
the inline capacity DIO_INLINE_BIO_VECS = 4 — is still served by the
simple single-Segment path (the routing threshold is BIO_MAX_VECS = 256,
not the inline capacity), and that path then uses heap-allocated vector
storage (`usedInline = false`), not inline page storage. -/
theorem claim_C9_counterexample :
    blkdev_direct_IO_entry ⟨0, true, false, false⟩
        ⟨0, false, false, 5, [⟨20480, 0⟩]⟩ = .simple 5 ∧
    blkdev_direct_IO_simple ⟨0, true, false, false⟩
        ⟨0, false, false, 5, [⟨20480, 0⟩]⟩ (2 ^ 9) 5 0 =
      .done 20480 false ∧
    DIO_INLINE_BIO_VECS < 5 ∧ 5 ≤ BIO_MAX_VECS := by
  decide

/-- C9 (amended: the routing threshold is one full bio's vector capacity
BIO_MAX_VECS, not the inline capacity): every non-empty synchronous
request whose page count is at most BIO_MAX_VECS is served by the simple
single-Segment path; asynchronous requests, and requests needing more
than BIO_MAX_VECS pages, go through the general multi-Segment path; and
within the simple path the inline page storage is used precisely when the
page count is at most DIO_INLINE_BIO_VECS, with heap-allocated vectors
otherwise. -/
theorem claim_C9 (iocb iocb' : Kiocb) (iter iter' : IovIter)
    (b dev : Nat) (c : Chunk) (rest : List Chunk)
    (hne : iov_iter_count iter.chunks ≠ 0)
    (hs : iocb.is_sync = true) (hpg : iter.npages ≤ BIO_MAX_VECS)
    (hne' : iov_iter_count iter'.chunks ≠ 0)
    (hother : iocb'.is_sync = false ∨ BIO_MAX_VECS < iter'.npages)
    (hp : iocb.ki_pos % 2 ^ b = 0) (ha : iter.alignment % 2 ^ b = 0)
    (hch : iter.chunks = c :: rest) (hce : c.err = 0) :
    blkdev_direct_IO_entry iocb iter = .simple iter.npages ∧
    blkdev_direct_IO_entry iocb' iter' =
      .general (bio_max_segs (bio_iov_vecs_to_alloc iter'
        (BIO_MAX_VECS + 1))) ∧
    blkdev_direct_IO_simple iocb iter (2 ^ b) iter.npages dev =
      .done (if dev ≠ 0 then blk_status_to_errno dev else (c.len : Int))
        (decide (iter.npages ≤ DIO_INLINE_BIO_VECS)) := by
  refine ⟨?_, ?_,
    simple_aligned_ok iocb iter b iter.npages dev c rest hp ha hch hce⟩
  · unfold blkdev_direct_IO_entry
    rw [if_neg hne]
    dsimp only
    have hpg' : iter.npages ≤ 256 := hpg
    have hmin : bio_iov_vecs_to_alloc iter (BIO_MAX_VECS + 1) =
        iter.npages := by
      show min iter.npages 257 = iter.npages
      omega
    rw [hmin, if_pos ⟨hs, hmin.symm ▸ hpg⟩]
  · unfold blkdev_direct_IO_entry
    rw [if_neg hne']
    dsimp only
    have hcond : ¬ (iocb'.is_sync = true ∧
        bio_iov_vecs_to_alloc iter' (BIO_MAX_VECS + 1) ≤ BIO_MAX_VECS) := by
      rintro ⟨h1, h2⟩
      rcases hother with h | h
      · simp [h] at h1
      · have h' : 256 < iter'.npages := h
        have h2' : min iter'.npages 257 ≤ 256 := h2
        omega
    rw [if_neg hcond]

/-- C9 witness: a sync 4-page request goes to the simple path with inline
storage; an async request goes to the general path. -/
theorem claim_C9_witness :
    (iov_iter_count [(⟨16384, 0⟩ : Chunk)] ≠ 0) ∧
    ((4 : Nat) ≤ BIO_MAX_VECS) ∧
    (iov_iter_count [(⟨512, 0⟩ : Chunk)] ≠ 0) ∧
    (blkdev_direct_IO_entry ⟨0, true, false, false⟩
        ⟨0, false, false, 4, [⟨16384, 0⟩]⟩ = .simple 4 ∧
    blkdev_direct_IO_entry ⟨0, false, false, false⟩
        ⟨0, false, false, 300, [⟨512, 0⟩]⟩ =
      .general (bio_max_segs (bio_iov_vecs_to_alloc
        ⟨0, false, false, 300, [⟨512, 0⟩]⟩ (BIO_MAX_VECS + 1))) ∧
    blkdev_direct_IO_simple ⟨0, true, false, false⟩
        ⟨0, false, false, 4, [⟨16384, 0⟩]⟩ (2 ^ 9) 4 0 =
      .done 16384 true) :=
  ⟨by decide, by decide, by decide,
    claim_C9 ⟨0, true, false, false⟩ ⟨0, false, false, false⟩
      ⟨0, false, false, 4, [⟨16384, 0⟩]⟩ ⟨0, false, false, 300, [⟨512, 0⟩]⟩
      9 0 ⟨16384, 0⟩ []
      (by decide) rfl (by decide) (by decide) (Or.inl rfl)
      (by decide) (by decide) rfl rfl⟩

/-- C10: a request whose iterator has zero remaining bytes returns a
zero-byte success from the entry point at once, before the alignment
validation and before any bio is built — even at an offset that the
general path's own alignment gate would reject with -EINVAL. -/
theorem claim_C10 (iocb : Kiocb) (iter : IovIter) (b : Nat)
    (hz : iov_iter_count iter.chunks = 0)
    (hmis : ¬ (iocb.ki_pos % 2 ^ b = 0)) :
    blkdev_direct_IO_entry iocb iter = .zeroBytes ∧
    blkdev_direct_IO_general iocb iter (2 ^ b) = .einval := by
  constructor
  · unfold blkdev_direct_IO_entry
    rw [if_pos hz]
  · exact general_misaligned _ _ _ (by tauto)

/-- C10 witness: an empty request at misaligned offset 1 succeeds with
zero bytes, while the general path would have rejected that offset. -/
theorem claim_C10_witness :
    (iov_iter_count ([] : List Chunk) = 0) ∧
    (¬ ((1 : Nat) % 2 ^ 9 = 0)) ∧
    (blkdev_direct_IO_entry ⟨1, true, false, false⟩
        ⟨0, false, false, 0, []⟩ = .zeroBytes ∧
    blkdev_direct_IO_general ⟨1, true, false, false⟩
        ⟨0, false, false, 0, []⟩ (2 ^ 9) = .einval) :=
  ⟨by decide, by decide,
    claim_C10 ⟨1, true, false, false⟩ ⟨0, false, false, 0, []⟩ 9
      rfl (by decide)⟩

end BlkFops
